import Mathlib

/-!
Verification of the job-application tracker's storage, migration, preferences,
filtering, kanban-grouping and suggestion-captcha logic.

The definitions below are a shallow embedding of the TypeScript/PHP sources:

* `src/storage/applications.ts` : `mapStatusToStageType`, `isLegacyApplication`,
  `migrateApplicationData`, `getApplications` (modelled at the parsed-store level,
  with the `generateId` supply and the `sanitizeObject` pass taken as parameters,
  since `src/utils/id.ts` and `src/utils/url.ts` are not part of the corpus);
* `src/storage/preferences.ts` + `src/utils/constants.ts` : `getPreferences`,
  `DEFAULT_PREFERENCES`;
* `src/storage/opportunities.ts` : `convertOpportunityToApplication`;
* `src/pages/HomePage.tsx` : the search-metadata pass and `filteredApplications`;
* `src/components/KanbanView.tsx` : `getInterviewingSubStatus` and the grouping key;
* the PHP suggestion endpoints : captcha issuance and the POST validation step.

JavaScript strings are modelled as `String`; optional string fields are modelled
as `String` with `""` for absence, matching JS truthiness checks on them.
Timestamps are modelled as `Int` (minutes).
-/

structure InterviewEvent where
  id : String
  type : String
  date : String
  status : String
  notes : String := ""
  customTypeName : String := ""
  interviewerName : String := ""
deriving DecidableEq

structure JobApplication where
  id : String
  position : String
  company : String
  salary : String
  status : String
  applicationDate : String
  interviewDate : String
  followUpDate : String
  link : String
  platform : String
  contactName : String
  notes : String
  timeline : List InterviewEvent
  customFields : List (String × String) := []
deriving DecidableEq

/-- A raw stored record: `timeline = none` models the absence of the `timeline`
property (the legacy shape `LegacyJobApplication`). -/
structure StoredApplication where
  id : String
  position : String
  company : String
  salary : String
  status : String
  applicationDate : String
  interviewDate : String
  followUpDate : String
  link : String
  platform : String
  contactName : String
  notes : String
  timeline : Option (List InterviewEvent)
  customFields : List (String × String) := []
deriving DecidableEq

/-- The fixed lookup table inside `mapStatusToStageType`. -/
def statusMap : List (String × String) :=
  [("Applied", "application_submitted"),
   ("Interviewing", "technical_interview"),
   ("Offer", "offer"),
   ("Rejected", "rejected"),
   ("Withdrawn", "withdrawn")]

/-- `mapStatusToStageType` from `src/storage/applications.ts`:
`statusMap[status] || 'application_submitted'`. -/
def mapStatusToStageType (status : String) : String :=
  (statusMap.lookup status).getD ("application_submitted")

/-- `isLegacyApplication`: a record is legacy iff it has no `timeline` property. -/
def isLegacyApplication (app : StoredApplication) : Bool :=
  app.timeline.isNone

/-- `migrateApplicationData` from `src/storage/applications.ts`.
`gen n` stands for the result of the (n+1)-th `generateId()` call;
`today` stands for `new Date().toISOString().split('T')[0]`. -/
def migrateApplicationData (gen : Nat → String) (today : String)
    (legacyApp : StoredApplication) : JobApplication :=
  let t1 : List InterviewEvent :=
    if legacyApp.applicationDate ≠ "" then
      [{ id := gen 0, type := "application_submitted",
         date := legacyApp.applicationDate, status := "completed" }]
    else []
  let t2 : List InterviewEvent :=
    if legacyApp.interviewDate ≠ "" then
      t1 ++ [{ id := gen t1.length, type := mapStatusToStageType legacyApp.status,
               date := legacyApp.interviewDate, status := "scheduled" }]
    else t1
  { id := legacyApp.id
    position := legacyApp.position
    company := legacyApp.company
    salary := legacyApp.salary
    status := legacyApp.status
    applicationDate := legacyApp.applicationDate
    interviewDate := legacyApp.interviewDate
    followUpDate := legacyApp.followUpDate
    link := legacyApp.link
    platform := legacyApp.platform
    contactName := legacyApp.contactName
    notes := legacyApp.notes
    customFields := legacyApp.customFields
    timeline :=
      if t2.length > 0 then t2
      else
        [{ id := gen 0, type := "application_submitted",
           date := if legacyApp.applicationDate ≠ "" then legacyApp.applicationDate else today,
           status := "completed" }] }

/-- The `finalApp = app as JobApplication` branch of `getApplications`:
a non-legacy stored record with timeline `tl` read back as a `JobApplication`. -/
def asJobApplication (app : StoredApplication) (tl : List InterviewEvent) : JobApplication :=
  { id := app.id, position := app.position, company := app.company, salary := app.salary,
    status := app.status, applicationDate := app.applicationDate,
    interviewDate := app.interviewDate, followUpDate := app.followUpDate,
    link := app.link, platform := app.platform, contactName := app.contactName,
    notes := app.notes, customFields := app.customFields, timeline := tl }

/-- The per-record branch of `getApplications`:
`if (isLegacyApplication(app)) migrateApplicationData(app) else app as JobApplication`. -/
def processStoredApplication (gen : Nat → String) (today : String)
    (app : StoredApplication) : JobApplication :=
  match app.timeline with
  | some tl => asJobApplication app tl
  | none => migrateApplicationData gen today app

/-- A `JobApplication` written back into stored shape (the timeline property present). -/
def appToStored (a : JobApplication) : StoredApplication :=
  { id := a.id, position := a.position, company := a.company, salary := a.salary,
    status := a.status, applicationDate := a.applicationDate,
    interviewDate := a.interviewDate, followUpDate := a.followUpDate,
    link := a.link, platform := a.platform, contactName := a.contactName,
    notes := a.notes, customFields := a.customFields, timeline := some a.timeline }

/-- The parsed contents of `localStorage[STORAGE_KEY]`: absent, non-JSON or
non-array (both of which `getApplications` turns into `[]`), or an array of records. -/
inductive StoredData where
  | missing
  | invalid
  | items (apps : List StoredApplication)
deriving DecidableEq

/-- `getApplications` from `src/storage/applications.ts` at the parsed-store level.
`sanitize` stands for `sanitizeObject` from `src/utils/url.ts` (not in the corpus);
every claim quantifies over it. -/
def getApplications (gen : Nat → String) (today : String)
    (sanitize : JobApplication → JobApplication) (store : StoredData) : List JobApplication :=
  match store with
  | .missing => []
  | .invalid => []
  | .items apps => apps.map (fun app => sanitize (processStoredApplication gen today app))

/-- The store contents after the asynchronous save-back scheduled by
`getApplications`: each legacy record is replaced by its migrated form; when no
record is legacy, no `setTimeout` is scheduled and the store is untouched. -/
def storeAfterLoad (gen : Nat → String) (today : String) (store : StoredData) : StoredData :=
  match store with
  | .missing => .missing
  | .invalid => .invalid
  | .items apps =>
    if apps.any isLegacyApplication then
      .items (apps.map (fun a =>
        if isLegacyApplication a then appToStored (migrateApplicationData gen today a) else a))
    else .items apps

/-- C1: for every stored record that already has a `timeline` property (even an
empty array) the load step classifies it as non-legacy and returns it with its
timeline unchanged — no events are appended — and on a store made only of such
records the save-back never fires, so loading twice in a row yields the same
result (hence the same timelines) as loading once. -/
theorem load_migration_idempotent_C1
    (gen : Nat → String) (today : String) (sanitize : JobApplication → JobApplication)
    (app : StoredApplication) (tl : List InterviewEvent) (h : app.timeline = some tl)
    (apps : List StoredApplication) (hall : ∀ a ∈ apps, a.timeline.isSome) :
    isLegacyApplication app = false
    ∧ processStoredApplication gen today app = asJobApplication app tl
    ∧ (processStoredApplication gen today app).timeline = tl
    ∧ storeAfterLoad gen today (.items apps) = .items apps
    ∧ getApplications gen today sanitize (storeAfterLoad gen today (.items apps))
        = getApplications gen today sanitize (.items apps) := by
  have hleg : isLegacyApplication app = false := by
    simp [isLegacyApplication, h]
  have hproc : processStoredApplication gen today app = asJobApplication app tl := by
    simp [processStoredApplication, h]
  have hany : apps.any isLegacyApplication = false := by
    simp only [List.any_eq_false]
    intro a ha
    have := hall a ha
    simp [isLegacyApplication, Option.isNone_iff_eq_none]
    exact Option.isSome_iff_ne_none.mp this
  have hstore : storeAfterLoad gen today (.items apps) = .items apps := by
    simp [storeAfterLoad, hany]
  refine ⟨hleg, hproc, ?_, hstore, ?_⟩
  · rw [hproc]; rfl
  · rw [hstore]

/-- Closed instance of C1 at a store of two records, one with an empty timeline. -/
theorem load_migration_idempotent_C1_witness :
    let ev : InterviewEvent :=
      { id := "e1", type := "application_submitted", date := "2024-01-01", status := "completed" }
    let a1 : StoredApplication :=
      { id := "a1", position := "Dev", company := "Acme", salary := "", status := "Applied",
        applicationDate := "2024-01-01", interviewDate := "", followUpDate := "", link := "",
        platform := "", contactName := "", notes := "", timeline := some [ev] }
    let a2 : StoredApplication :=
      { id := "a2", position := "QA", company := "Beta", salary := "", status := "Hold",
        applicationDate := "", interviewDate := "", followUpDate := "", link := "",
        platform := "", contactName := "", notes := "", timeline := some [] }
    isLegacyApplication a1 = false
    ∧ processStoredApplication (fun _ => "g") ("2024-05-05") a1 = asJobApplication a1 [ev]
    ∧ (processStoredApplication (fun _ => "g") ("2024-05-05") a1).timeline = [ev]
    ∧ storeAfterLoad (fun _ => "g") ("2024-05-05") (.items [a1, a2]) = .items [a1, a2]
    ∧ getApplications (fun _ => "g") ("2024-05-05") id
        (storeAfterLoad (fun _ => "g") ("2024-05-05") (.items [a1, a2]))
        = getApplications (fun _ => "g") ("2024-05-05") id (.items [a1, a2]) := by
  intro ev a1 a2
  exact load_migration_idempotent_C1 (fun _ => "g") ("2024-05-05") id a1 [ev] rfl [a1, a2]
    (by intro a ha; simp [a1, a2] at ha; rcases ha with h | h <;> simp [h, a1, a2])

/-- C2: migrating a legacy record with both dates present yields exactly the two
events of the claim, via the fixed status table (with default), and every other
field is carried over unchanged; in particular the 2024-01-01/2024-02-01
Interviewing record yields application_submitted/completed then
technical_interview/scheduled. -/
theorem migrate_legacy_two_events_C2
    (gen : Nat → String) (today : String) (app : StoredApplication)
    (_hleg : app.timeline = none)
    (had : app.applicationDate ≠ "") (hid : app.interviewDate ≠ "") :
    (migrateApplicationData gen today app).timeline =
      [{ id := gen 0, type := "application_submitted",
         date := app.applicationDate, status := "completed" },
       { id := gen 1, type := mapStatusToStageType app.status,
         date := app.interviewDate, status := "scheduled" }]
    ∧ mapStatusToStageType ("Applied") = "application_submitted"
    ∧ mapStatusToStageType ("Interviewing") = "technical_interview"
    ∧ mapStatusToStageType ("Offer") = "offer"
    ∧ mapStatusToStageType ("Rejected") = "rejected"
    ∧ mapStatusToStageType ("Withdrawn") = "withdrawn"
    ∧ (∀ s : String, s ∉ ["Applied", "Interviewing", "Offer", "Rejected", "Withdrawn"] →
        mapStatusToStageType s = "application_submitted")
    ∧ (migrateApplicationData gen today app).id = app.id
    ∧ (migrateApplicationData gen today app).position = app.position
    ∧ (migrateApplicationData gen today app).company = app.company
    ∧ (migrateApplicationData gen today app).salary = app.salary
    ∧ (migrateApplicationData gen today app).status = app.status
    ∧ (migrateApplicationData gen today app).applicationDate = app.applicationDate
    ∧ (migrateApplicationData gen today app).interviewDate = app.interviewDate
    ∧ (migrateApplicationData gen today app).followUpDate = app.followUpDate
    ∧ (migrateApplicationData gen today app).link = app.link
    ∧ (migrateApplicationData gen today app).platform = app.platform
    ∧ (migrateApplicationData gen today app).contactName = app.contactName
    ∧ (migrateApplicationData gen today app).notes = app.notes
    ∧ (migrateApplicationData gen today app).customFields = app.customFields
    ∧ (app.status = "Interviewing" → app.applicationDate = "2024-01-01" →
        app.interviewDate = "2024-02-01" →
        (migrateApplicationData gen today app).timeline =
          [{ id := gen 0, type := "application_submitted",
             date := "2024-01-01", status := "completed" },
           { id := gen 1, type := "technical_interview",
             date := "2024-02-01", status := "scheduled" }]) := by
  have htl : (migrateApplicationData gen today app).timeline =
      [{ id := gen 0, type := "application_submitted",
         date := app.applicationDate, status := "completed" },
       { id := gen 1, type := mapStatusToStageType app.status,
         date := app.interviewDate, status := "scheduled" }] := by
    simp [migrateApplicationData, had, hid]
  refine ⟨htl, rfl, rfl, rfl, rfl, rfl, ?_, rfl, rfl, rfl, rfl, rfl, rfl, rfl, rfl, rfl,
    rfl, rfl, rfl, rfl, ?_⟩
  · intro s hs
    simp only [List.mem_cons, List.not_mem_nil, or_false, not_or] at hs
    obtain ⟨h1, h2, h3, h4, h5⟩ := hs
    have b1 : (s == "Applied") = false := by simp [h1]
    have b2 : (s == "Interviewing") = false := by simp [h2]
    have b3 : (s == "Offer") = false := by simp [h3]
    have b4 : (s == "Rejected") = false := by simp [h4]
    have b5 : (s == "Withdrawn") = false := by simp [h5]
    simp [mapStatusToStageType, statusMap, List.lookup, b1, b2, b3, b4, b5]
  · intro hs h1 h2
    rw [htl, hs, h1, h2]
    rfl

/-- Closed instance of C2 at the spec's concrete legacy record. -/
theorem migrate_legacy_two_events_C2_witness :
    let app : StoredApplication :=
      { id := "a9", position := "Dev", company := "Acme", salary := "100", status := "Interviewing",
        applicationDate := "2024-01-01", interviewDate := "2024-02-01", followUpDate := "",
        link := "l", platform := "p", contactName := "c", notes := "n", timeline := none }
    (migrateApplicationData (fun n => if n = 0 then "i1" else "i2") ("2024-05-05") app).timeline =
      [{ id := "i1", type := "application_submitted", date := "2024-01-01", status := "completed" },
       { id := "i2", type := "technical_interview", date := "2024-02-01", status := "scheduled" }]
    ∧ (migrateApplicationData (fun n => if n = 0 then "i1" else "i2") ("2024-05-05") app).notes
        = "n" := by
  intro app
  have h := migrate_legacy_two_events_C2 (fun n => if n = 0 then "i1" else "i2") ("2024-05-05")
    app rfl (by simp [app]) (by simp [app])
  refine ⟨?_, ?_⟩
  · have := h.2.2.2.2.2.2.2.2.2.2.2.2.2.2.2.2.2.2.2.2
    have h2 := this rfl rfl rfl
    simpa using h2
  · have := h.2.2.2.2.2.2.2.2.2.2.2.2.2.2.2.2.2.2.1
    simpa [app] using this

structure ATSSearchPreferences where
  roles : String
  keywords : String
  location : String
deriving DecidableEq

structure CustomInterviewEvent where
  id : String
  label : String
deriving DecidableEq

structure FieldDefinition where
  id : String
  label : String
  type : String
  required : Bool
  options : List String := []
deriving DecidableEq

structure UserPreferences where
  enabledFields : List String
  columnOrder : List String
  customFields : List FieldDefinition
  defaultView : String
  dateFormat : String
  customInterviewEvents : List CustomInterviewEvent
  atsSearch : ATSSearchPreferences
deriving DecidableEq

/-- `DEFAULT_FIELDS` from `src/utils/constants.ts`. -/
def DEFAULT_FIELDS : List FieldDefinition :=
  [{ id := "position", label := "Position", type := "text", required := true },
   { id := "company", label := "Company", type := "text", required := true },
   { id := "status", label := "Status", type := "text", required := false },
   { id := "applicationDate", label := "Application Date", type := "date", required := false },
   { id := "timeline", label := "Timeline", type := "text", required := false },
   { id := "notes", label := "Notes", type := "text", required := false },
   { id := "link", label := "Link", type := "url", required := false },
   { id := "platform", label := "Platform", type := "text", required := false },
   { id := "salary", label := "Salary", type := "text", required := false },
   { id := "contactName", label := "Contact", type := "text", required := false },
   { id := "followUpDate", label := "Follow Up", type := "date", required := false }]

/-- `DEFAULT_PREFERENCES` from `src/utils/constants.ts`. -/
def DEFAULT_PREFERENCES : UserPreferences :=
  { enabledFields := (DEFAULT_FIELDS.filter (fun field => field.id ≠ "notes")).map (fun field => field.id)
    columnOrder := DEFAULT_FIELDS.map (fun field => field.id)
    customFields := []
    defaultView := "table"
    dateFormat := "YYYY-MM-DD"
    customInterviewEvents := []
    atsSearch :=
      { roles := "\"customer success engineer\" OR \"customer success\" OR \"customer support\" OR \"technical support\""
        keywords := "\"hiring\" OR \"apply\" OR \"open role\""
        location := "\"remote\" OR \"work from home\"" } }

/-- The result of `JSON.parse` on the stored preferences blob, with every field
possibly absent (`Partial<UserPreferences>`). -/
structure PartialPreferences where
  enabledFields : Option (List String) := none
  columnOrder : Option (List String) := none
  customFields : Option (List FieldDefinition) := none
  defaultView : Option String := none
  dateFormat : Option String := none
  customInterviewEvents : Option (List CustomInterviewEvent) := none
  atsSearch : Option ATSSearchPreferences := none
deriving DecidableEq

/-- The stored preferences value seen by `getPreferences`: the key may be absent,
the JSON may fail to parse (the `catch` branch), or it parses to a partial record. -/
inductive StoredPreferences where
  | missing
  | corrupt
  | parsed (p : PartialPreferences)
deriving DecidableEq

/-- Per-field merge for `enabledFields` / `columnOrder`:
`parsed.x && parsed.x.length > 0 ? parsed.x : DEFAULT_PREFERENCES.x`. -/
def mergeNonEmptyList (stored : Option (List String)) (dflt : List String) : List String :=
  match stored with
  | some l => if l.length > 0 then l else dflt
  | none => dflt

/-- Per-field merge for the allowed-value checks on `defaultView` / `dateFormat`:
`parsed.x && allowed.includes(parsed.x) ? parsed.x : DEFAULT_PREFERENCES.x`. -/
def mergeAllowed (allowed : List String) (stored : Option String) (dflt : String) : String :=
  match stored with
  | some v => if v ≠ "" ∧ allowed.contains v then v else dflt
  | none => dflt

/-- `getPreferences` from `src/storage/preferences.ts`. -/
def getPreferences (stored : StoredPreferences) : UserPreferences :=
  match stored with
  | .missing => DEFAULT_PREFERENCES
  | .corrupt => DEFAULT_PREFERENCES
  | .parsed parsed =>
    { enabledFields := mergeNonEmptyList parsed.enabledFields DEFAULT_PREFERENCES.enabledFields
      columnOrder := mergeNonEmptyList parsed.columnOrder DEFAULT_PREFERENCES.columnOrder
      customFields := parsed.customFields.getD DEFAULT_PREFERENCES.customFields
      defaultView := mergeAllowed ["table", "timeline", "kanban", "calendar"]
        parsed.defaultView DEFAULT_PREFERENCES.defaultView
      dateFormat := mergeAllowed ["DD/MM/YYYY", "MM/DD/YYYY", "YYYY-MM-DD"]
        parsed.dateFormat DEFAULT_PREFERENCES.dateFormat
      customInterviewEvents := parsed.customInterviewEvents.getD DEFAULT_PREFERENCES.customInterviewEvents
      atsSearch := parsed.atsSearch.getD DEFAULT_PREFERENCES.atsSearch }

/-- C3: preferences loading is total and falls back per field: each field of the
result is the stored field when it passes its check and the corresponding
default otherwise, depending only on that stored field; a parse failure yields
the full defaults; and `{"dateFormat":"INVALID"}` yields the default
"YYYY-MM-DD" with every other field at its own default. -/
theorem preferences_per_field_fallback_C3 :
    (∀ p : PartialPreferences,
      (getPreferences (.parsed p)).enabledFields
          = mergeNonEmptyList p.enabledFields DEFAULT_PREFERENCES.enabledFields
      ∧ (getPreferences (.parsed p)).columnOrder
          = mergeNonEmptyList p.columnOrder DEFAULT_PREFERENCES.columnOrder
      ∧ (getPreferences (.parsed p)).customFields
          = p.customFields.getD DEFAULT_PREFERENCES.customFields
      ∧ (getPreferences (.parsed p)).defaultView
          = mergeAllowed ["table", "timeline", "kanban", "calendar"]
              p.defaultView DEFAULT_PREFERENCES.defaultView
      ∧ (getPreferences (.parsed p)).dateFormat
          = mergeAllowed ["DD/MM/YYYY", "MM/DD/YYYY", "YYYY-MM-DD"]
              p.dateFormat DEFAULT_PREFERENCES.dateFormat
      ∧ (getPreferences (.parsed p)).customInterviewEvents
          = p.customInterviewEvents.getD DEFAULT_PREFERENCES.customInterviewEvents
      ∧ (getPreferences (.parsed p)).atsSearch
          = p.atsSearch.getD DEFAULT_PREFERENCES.atsSearch)
    ∧ getPreferences .corrupt = DEFAULT_PREFERENCES
    ∧ getPreferences .missing = DEFAULT_PREFERENCES
    ∧ getPreferences (.parsed { dateFormat := some "INVALID" }) = DEFAULT_PREFERENCES
    ∧ (getPreferences (.parsed { dateFormat := some "INVALID" })).dateFormat = "YYYY-MM-DD" := by
  refine ⟨fun p => ⟨rfl, rfl, rfl, rfl, rfl, rfl, rfl⟩, rfl, rfl, ?_, ?_⟩
  · simp [getPreferences, mergeNonEmptyList, mergeAllowed, DEFAULT_PREFERENCES]
  · simp [getPreferences, mergeAllowed, DEFAULT_PREFERENCES]

structure JobOpportunity where
  id : String
  position : String
  company : String
  link : String
  description : String := ""
  location : String := ""
  jobType : String := ""
  salary : String := ""
  postedDate : String := ""
  capturedDate : String := ""
deriving DecidableEq

/-- `convertOpportunityToApplication` from `src/storage/opportunities.ts`.
`gen n` is the (n+1)-th `generateId()` result; `today` is
`new Date().toISOString().split('T')[0]`. -/
def convertOpportunityToApplication (gen : Nat → String) (today : String)
    (opportunity : JobOpportunity) : JobApplication :=
  let base : JobApplication :=
    { id := gen 0
      position := opportunity.position
      company := opportunity.company
      salary := if opportunity.salary ≠ "" then opportunity.salary else ""
      status := "Applied"
      applicationDate := today
      interviewDate := ""
      timeline :=
        [{ id := gen 1, type := "application_submitted", date := today, status := "completed" }]
      notes := if opportunity.description ≠ "" then opportunity.description else ""
      link := opportunity.link
      platform := "LinkedIn"
      contactName := ""
      followUpDate := "" }
  if opportunity.location ≠ "" ∨ opportunity.jobType ≠ "" then
    let additionalInfo : List String :=
      (if opportunity.location ≠ "" then ["Location: " ++ opportunity.location] else [])
      ++ (if opportunity.jobType ≠ "" then ["Type: " ++ opportunity.jobType] else [])
      ++ (if opportunity.postedDate ≠ "" then ["Posted: " ++ opportunity.postedDate] else [])
    if base.notes ≠ "" then
      { base with notes := base.notes ++ "\n\n" ++ String.intercalate "\n" additionalInfo }
    else
      { base with notes := String.intercalate "\n" additionalInfo }
  else
    base

/-- Substring occurrence on character lists, by scanning every suffix. -/
def listContainsSub (needle : List Char) : List Char → Bool
  | [] => needle.isEmpty
  | b :: bs => needle.isPrefixOf (b :: bs) || listContainsSub needle bs

/-- The JS `hay.includes(needle)` substring test. -/
def strContains (hay needle : String) : Bool :=
  listContainsSub needle.data hay.data

theorem listContainsSub_iff (n h : List Char) : listContainsSub n h = true ↔ n <:+: h := by
  induction h with
  | nil =>
    simp [listContainsSub, List.isEmpty_iff]
  | cons b bs ih =>
    simp only [listContainsSub, Bool.or_eq_true, ih, List.isPrefixOf_iff_prefix,
      List.infix_cons_iff]

/-- `strContains hay needle` is exactly "needle is a substring of hay". -/
theorem strContains_iff (hay needle : String) :
    strContains hay needle = true ↔ needle.data <:+: hay.data := by
  exact listContainsSub_iff needle.data hay.data


/-- The notes produced by `convertOpportunityToApplication`: the description,
with Location/Type/Posted lines appended only when location or jobType is present. -/
def convertNotes (opp : JobOpportunity) : String :=
  if opp.location ≠ "" ∨ opp.jobType ≠ "" then
    let additionalInfo : List String :=
      (if opp.location ≠ "" then ["Location: " ++ opp.location] else [])
      ++ (if opp.jobType ≠ "" then ["Type: " ++ opp.jobType] else [])
      ++ (if opp.postedDate ≠ "" then ["Posted: " ++ opp.postedDate] else [])
    if opp.description ≠ "" then
      opp.description ++ "\n\n" ++ String.intercalate "\n" additionalInfo
    else String.intercalate "\n" additionalInfo
  else opp.description

theorem convertOpportunityToApplication_eq
    (gen : Nat → String) (today : String) (opp : JobOpportunity) :
    convertOpportunityToApplication gen today opp =
      { id := gen 0, position := opp.position, company := opp.company,
        salary := opp.salary, status := "Applied", applicationDate := today,
        interviewDate := "", followUpDate := "", link := opp.link,
        platform := "LinkedIn", contactName := "",
        notes := convertNotes opp,
        timeline :=
          [{ id := gen 1, type := "application_submitted", date := today, status := "completed" }],
        customFields := [] } := by
  have hsal : (if opp.salary ≠ "" then opp.salary else "") = opp.salary := by
    by_cases h : opp.salary = "" <;> simp [h]
  by_cases hl : opp.location = "" <;> by_cases hj : opp.jobType = "" <;>
    by_cases hd : opp.description = "" <;>
      simp [convertOpportunityToApplication, convertNotes, hsal, hl, hj, hd]

/-- C7 counterexample: an opportunity whose `postedDate` is present but whose
`location` and `jobType` are both absent is converted WITHOUT the
"Posted: ..." line — the notes stay exactly the description — refuting the
claim that `postedDate` is folded into the notes whenever present. -/
theorem convert_postedDate_dropped_C7_counterexample :
    let opp : JobOpportunity :=
      { id := "o1", position := "X", company := "Y", link := "z",
        description := "d", postedDate := "2024-03-04" }
    opp.postedDate ≠ ""
    ∧ (convertOpportunityToApplication (fun n => if n = 0 then "g0" else "g1") ("2026-10-11") opp).notes = "d"
    ∧ strContains
        (convertOpportunityToApplication (fun n => if n = 0 then "g0" else "g1") ("2026-10-11") opp).notes
        ("Posted: 2024-03-04") = false := by
  refine ⟨by decide, by decide, by decide⟩

/-- C7 (amended): conversion allocates a fresh id, sets status "Applied",
applicationDate = today, exactly one application_submitted/completed event dated
today, copies link/company/position/salary, and folds location and jobType into
the notes as appended lines when present — with postedDate appended only when
location or jobType is also present; when both location and jobType are absent
the notes are exactly the description, whatever postedDate holds. -/
theorem convert_opportunity_C7
    (gen : Nat → String) (today : String) (opp : JobOpportunity) :
    (convertOpportunityToApplication gen today opp).id = gen 0
    ∧ (convertOpportunityToApplication gen today opp).status = "Applied"
    ∧ (convertOpportunityToApplication gen today opp).applicationDate = today
    ∧ (convertOpportunityToApplication gen today opp).timeline =
        [{ id := gen 1, type := "application_submitted", date := today, status := "completed" }]
    ∧ (convertOpportunityToApplication gen today opp).link = opp.link
    ∧ (convertOpportunityToApplication gen today opp).company = opp.company
    ∧ (convertOpportunityToApplication gen today opp).position = opp.position
    ∧ (convertOpportunityToApplication gen today opp).salary = opp.salary
    ∧ (convertOpportunityToApplication gen today opp).notes = convertNotes opp
    ∧ (opp.location = "" → opp.jobType = "" →
        (convertOpportunityToApplication gen today opp).notes = opp.description) := by
  rw [convertOpportunityToApplication_eq]
  refine ⟨rfl, rfl, rfl, rfl, rfl, rfl, rfl, rfl, rfl, ?_⟩
  intro h1 h2
  simp [convertNotes, h1, h2]

/-- Closed instance of C7 at the spec's example opportunity. -/
theorem convert_opportunity_C7_witness :
    let opp : JobOpportunity := { id := "o2", position := "X", company := "Y", link := "z" }
    (convertOpportunityToApplication (fun n => if n = 0 then "g0" else "g1") ("2026-10-11") opp).status
        = "Applied"
    ∧ (convertOpportunityToApplication (fun n => if n = 0 then "g0" else "g1") ("2026-10-11") opp).timeline
        = [{ id := "g1", type := "application_submitted", date := "2026-10-11", status := "completed" }]
    ∧ (convertOpportunityToApplication (fun n => if n = 0 then "g0" else "g1") ("2026-10-11") opp).notes
        = "" := by
  intro opp
  have h := convert_opportunity_C7 (fun n => if n = 0 then "g0" else "g1") ("2026-10-11") opp
  refine ⟨h.2.1, ?_, ?_⟩
  · simpa using h.2.2.2.1
  · have := h.2.2.2.2.2.2.2.2.2 rfl rfl
    simpa [opp] using this

/-- C10: conversion unconditionally sets platform to the literal "LinkedIn" and
interviewDate, contactName and followUpDate to the empty string, for every
opportunity. -/
theorem convert_fixed_fields_C10
    (gen : Nat → String) (today : String) (opp : JobOpportunity) :
    (convertOpportunityToApplication gen today opp).platform = "LinkedIn"
    ∧ (convertOpportunityToApplication gen today opp).interviewDate = ""
    ∧ (convertOpportunityToApplication gen today opp).contactName = ""
    ∧ (convertOpportunityToApplication gen today opp).followUpDate = "" := by
  rw [convertOpportunityToApplication_eq]
  exact ⟨rfl, rfl, rfl, rfl⟩


/-- ASCII lower-casing of one character (the model of JS `toLowerCase`). -/
def charLower (c : Char) : Char :=
  if 65 ≤ c.toNat ∧ c.toNat ≤ 90 then Char.ofNat (c.toNat + 32) else c

/-- The model of `String.prototype.toLowerCase`. -/
def strToLower (s : String) : String :=
  ⟨s.data.map charLower⟩

/-- JS whitespace for `trim` (the common cases). -/
def isJsSpace (c : Char) : Bool :=
  c = ' ' || c = '\t' || c = '\n' || c = '\r'

/-- The model of `String.prototype.trim`. -/
def strTrim (s : String) : String :=
  ⟨((s.data.dropWhile isJsSpace).reverse.dropWhile isJsSpace).reverse⟩

/-- The `Filters` interface from `src/components/FiltersBar.tsx`. -/
structure Filters where
  search : String
  status : String
  statusInclude : List String
  statusExclude : List String
  platform : String
  dateFrom : String
  dateTo : String
deriving DecidableEq

/-- A record extended with the precomputed fields of the single-pass aggregation
in `HomePage` (`parsedApplicationDate`, `searchMetadata`). -/
structure ApplicationWithMetadata where
  app : JobApplication
  parsedApplicationDate : Option Int
  searchMetadata : String
deriving DecidableEq

/-- The per-record timeline part of the search metadata:
the events' notes, customTypeName and interviewerName joined with spaces. -/
def timelineSearchStr (app : JobApplication) : String :=
  String.intercalate " "
    (app.timeline.map (fun event =>
      event.notes ++ " " ++ event.customTypeName ++ " " ++ event.interviewerName))

/-- The precomputed lower-cased search string of one record. -/
def searchMetadata (app : JobApplication) : String :=
  strToLower (app.position ++ " " ++ app.company ++ " " ++ app.contactName ++ " " ++ app.notes
    ++ " " ++ timelineSearchStr app)

/-- The map body of the `useMemo` aggregation pass in `HomePage`.
`parse` stands for `parseLocalDate` from `src/utils/date.ts` (not in the corpus);
the filtering claims quantify over it. -/
def withMetadata (parse : String → Int) (app : JobApplication) : ApplicationWithMetadata :=
  { app := app
    parsedApplicationDate :=
      if app.applicationDate ≠ "" then some (parse app.applicationDate) else none
    searchMetadata := searchMetadata app }

/-- The filtering predicate of `filteredApplications` in `HomePage`. -/
def matchesFilters (parse : String → Int) (filters : Filters)
    (a : ApplicationWithMetadata) : Bool :=
  if a.app.status == "Deleted" then false
  else
    let normalizedSearch := strToLower (strTrim filters.search)
    let matchesSearch :=
      if normalizedSearch != "" then strContains a.searchMetadata normalizedSearch else true
    let matchesStatus :=
      if filters.status != "" && filters.statusInclude.isEmpty && filters.statusExclude.isEmpty then
        a.app.status == filters.status
      else
        let afterInclude :=
          if !filters.statusInclude.isEmpty then filters.statusInclude.contains a.app.status
          else true
        if !filters.statusExclude.isEmpty && filters.statusExclude.contains a.app.status then
          false
        else afterInclude
    let matchesPlatform :=
      if filters.platform != "" then a.app.platform == filters.platform else true
    let fromDate := if filters.dateFrom != "" then some (parse filters.dateFrom) else none
    let toDate := if filters.dateTo != "" then some (parse filters.dateTo) else none
    let matchesDateFrom :=
      match fromDate with
      | some f =>
        match a.parsedApplicationDate with
        | some d => decide (f ≤ d)
        | none => false
      | none => true
    let matchesDateTo :=
      match toDate with
      | some t =>
        match a.parsedApplicationDate with
        | some d => decide (d ≤ t)
        | none => false
      | none => true
    matchesSearch && matchesStatus && matchesPlatform && matchesDateFrom && matchesDateTo

/-- `filteredApplications` from `HomePage`: the metadata pass followed by the filter. -/
def filteredApplications (parse : String → Int) (filters : Filters)
    (applications : List JobApplication) : List ApplicationWithMetadata :=
  (applications.map (withMetadata parse)).filter (matchesFilters parse filters)

/-- The Applied record of the spec's filtering examples. -/
def sampleApplied : JobApplication :=
  { id := "a1", position := "Dev", company := "Acme", salary := "", status := "Applied",
    applicationDate := "", interviewDate := "", followUpDate := "", link := "",
    platform := "", contactName := "", notes := "", timeline := [] }

/-- The four-status sample list used by the spec's filtering examples. -/
def sampleApplications : List JobApplication :=
  [sampleApplied,
   { id := "a2", position := "Dev", company := "Beta", salary := "", status := "Interviewing",
     applicationDate := "", interviewDate := "", followUpDate := "", link := "",
     platform := "", contactName := "", notes := "", timeline := [] },
   { id := "a3", position := "Dev", company := "Gamma", salary := "", status := "Rejected",
     applicationDate := "", interviewDate := "", followUpDate := "", link := "",
     platform := "", contactName := "", notes := "", timeline := [] },
   { id := "a4", position := "Dev", company := "Delta", salary := "", status := "Deleted",
     applicationDate := "", interviewDate := "", followUpDate := "", link := "",
     platform := "", contactName := "", notes := "", timeline := [] }]

/-- Filters with every field at its cleared default. -/
def emptyFilters : Filters :=
  { search := "", status := "", statusInclude := [], statusExclude := [],
    platform := "", dateFrom := "", dateTo := "" }

/-- C4: no record with status "Deleted" ever appears in the filtered result,
whatever the filters (search, status include/exclude, platform, dates) are; and
on the four-status sample, excluding "Rejected" with no include list returns
exactly the Applied and Interviewing records. -/
theorem filter_excludes_deleted_C4 :
    (∀ (parse : String → Int) (filters : Filters) (apps : List JobApplication)
        (a : ApplicationWithMetadata),
      a ∈ filteredApplications parse filters apps → a.app.status ≠ "Deleted")
    ∧ (filteredApplications (fun _ => 0) { emptyFilters with statusExclude := ["Rejected"] }
        sampleApplications).map (fun a => a.app.id) = ["a1", "a2"] := by
  constructor
  · intro parse filters apps a ha hdel
    have hm := (List.mem_filter.mp ha).2
    simp [matchesFilters, hdel] at hm
  · decide

/-- Closed instance of the universal part of C4: the Applied element of the
sample result is indeed not Deleted. -/
theorem filter_excludes_deleted_C4_witness :
    (withMetadata (fun _ => 0) sampleApplied).app.status ≠ "Deleted" := by
  exact filter_excludes_deleted_C4.1 (fun _ => 0)
    { emptyFilters with statusExclude := ["Rejected"] } sampleApplications _ (by decide)

/-- C5: status exclusion beats inclusion — a record whose status is in a
non-empty `statusExclude` never survives the filter, even when its status is
also in `statusInclude`; the legacy single `status` field exact-matches when
both arrays are empty, and is ignored (the result is unchanged by it) as soon
as either array is non-empty; and on the four-status sample,
include [Applied, Interviewing] with exclude [Interviewing] returns only the
Applied record. -/
theorem exclude_precedence_C5 :
    (∀ (parse : String → Int) (filters : Filters) (apps : List JobApplication)
        (a : ApplicationWithMetadata),
      a ∈ filteredApplications parse filters apps →
      filters.statusExclude ≠ [] → a.app.status ∉ filters.statusExclude)
    ∧ (∀ (parse : String → Int) (filters : Filters) (apps : List JobApplication)
        (a : ApplicationWithMetadata),
      a ∈ filteredApplications parse filters apps →
      filters.status ≠ "" → filters.statusInclude = [] → filters.statusExclude = [] →
      a.app.status = filters.status)
    ∧ (∀ (parse : String → Int) (filters : Filters) (apps : List JobApplication) (s : String),
      filters.statusInclude ≠ [] ∨ filters.statusExclude ≠ [] →
      filteredApplications parse { filters with status := s } apps
        = filteredApplications parse filters apps)
    ∧ (filteredApplications (fun _ => 0)
        { emptyFilters with statusInclude := ["Applied", "Interviewing"],
                            statusExclude := ["Interviewing"] }
        sampleApplications).map (fun a => a.app.id) = ["a1"] := by
  refine ⟨?_, ?_, ?_, by decide⟩
  · intro parse filters apps a ha hne hmem
    have hm := (List.mem_filter.mp ha).2
    have h1 : filters.statusExclude.isEmpty = false := by
      simp [List.isEmpty_iff, hne]
    have h2 : filters.statusExclude.contains a.app.status = true := by
      simpa using hmem
    by_cases hdel : (a.app.status == "Deleted") = true
    · simp [matchesFilters, hdel] at hm
    · simp only [Bool.not_eq_true] at hdel
      simp [matchesFilters, hdel, h1, h2, hmem] at hm
  · intro parse filters apps a ha hs hinc hexc
    have hm := (List.mem_filter.mp ha).2
    have hs2 : (filters.status != "") = true := by
      simpa using hs
    by_cases hdel : (a.app.status == "Deleted") = true
    · simp [matchesFilters, hdel] at hm
    · simp only [Bool.not_eq_true] at hdel
      simp [matchesFilters, hdel, hs2, hinc, hexc] at hm
      tauto
  · intro parse filters apps s h
    unfold filteredApplications
    apply List.filter_congr
    intro a _
    rcases h with h | h
    · have hi : filters.statusInclude.isEmpty = false := by
        simp [List.isEmpty_iff, h]
      simp [matchesFilters, hi]
    · have he : filters.statusExclude.isEmpty = false := by
        simp [List.isEmpty_iff, h]
      simp [matchesFilters, he]

/-- Closed instance of C5 at the sample list: the surviving record's status is
outside the exclude list, the legacy filter exact-matches, and the legacy field
is ignored when an include list is set. -/
theorem exclude_precedence_C5_witness :
    ((withMetadata (fun _ => 0) sampleApplied).app.status ∉ (["Interviewing"] : List String))
    ∧ (withMetadata (fun _ => 0) sampleApplied).app.status = "Applied"
    ∧ filteredApplications (fun _ => 0)
        { emptyFilters with statusInclude := ["Applied"], status := "Rejected" }
        sampleApplications
      = filteredApplications (fun _ => 0) { emptyFilters with statusInclude := ["Applied"] }
        sampleApplications := by
  refine ⟨?_, ?_, ?_⟩
  · exact exclude_precedence_C5.1 (fun _ => 0)
      { emptyFilters with statusInclude := ["Applied", "Interviewing"],
                          statusExclude := ["Interviewing"] }
      sampleApplications _ (by decide) (by decide)
  · exact exclude_precedence_C5.2.1 (fun _ => 0) { emptyFilters with status := "Applied" }
      sampleApplications _ (by decide) (by decide) rfl rfl
  · exact exclude_precedence_C5.2.2.1 (fun _ => 0)
      { emptyFilters with statusInclude := ["Applied"] } sampleApplications
      ("Rejected") (Or.inl (by decide))

/-- The record of the spec's search example (notes "Referred by Jane"). -/
def janeApplication : JobApplication :=
  { id := "j1", position := "Engineer", company := "Acme", salary := "", status := "Applied",
    applicationDate := "", interviewDate := "", followUpDate := "", link := "",
    platform := "", contactName := "", notes := "Referred by Jane", timeline := [] }

/-- C6: with only the search filter set, a non-deleted record survives the
filter exactly when the lower-cased trimmed search term is a substring of the
lower-cased concatenation of position, company, contactName, notes and every
timeline event's notes, customTypeName and interviewerName (the record's
`searchMetadata`); in particular the "Referred by Jane" record matches the
search term "jane". -/
theorem search_matches_metadata_C6 :
    (∀ (parse : String → Int) (app : JobApplication) (term : String),
      app.status ≠ "Deleted" →
      ((withMetadata parse app) ∈ filteredApplications parse
          { emptyFilters with search := term } [app]
        ↔ (strToLower (strTrim term)).data <:+: (searchMetadata app).data))
    ∧ (withMetadata (fun _ => 0) janeApplication) ∈ filteredApplications (fun _ => 0)
        { emptyFilters with search := "jane" } [janeApplication] := by
  constructor
  · intro parse app term hdel
    have hd : (app.status == "Deleted") = false := by
      simp [hdel]
    by_cases h0 : strToLower (strTrim term) = ""
    · simp [filteredApplications, List.filter, matchesFilters, withMetadata, emptyFilters,
        hd, h0, List.nil_infix]
    · have h0b : (strToLower (strTrim term) != "") = true := by
        simpa using h0
      simp [filteredApplications, List.filter, matchesFilters, withMetadata, emptyFilters,
        hd, h0b, ← strContains_iff]
      cases hsc : strContains (searchMetadata app) (strToLower (strTrim term)) <;> simp [hsc]
  · decide

/-- Closed instance of C6: the term "JANE " (upper-case, trailing space) also
matches the "Referred by Jane" record. -/
theorem search_matches_metadata_C6_witness :
    (withMetadata (fun _ => 0) janeApplication) ∈ filteredApplications (fun _ => 0)
        { emptyFilters with search := "JANE " } [janeApplication] := by
  exact (search_matches_metadata_C6.1 (fun _ => 0) janeApplication ("JANE ")
    (by decide)).mpr (by decide)

/-- Stable ascending insertion by integer key (the model of the stable JS
`sort((a, b) => key(a) - key(b))`). -/
def insertAscBy (key : α → Int) (x : α) : List α → List α
  | [] => [x]
  | y :: ys => if key x ≤ key y then x :: y :: ys else y :: insertAscBy key x ys

/-- Stable ascending sort by integer key. -/
def sortAscBy (key : α → Int) : List α → List α
  | [] => []
  | x :: xs => insertAscBy key x (sortAscBy key xs)

/-- Stable descending insertion by integer key (the model of the stable JS
`sort((a, b) => key(b) - key(a))`). -/
def insertDescBy (key : α → Int) (x : α) : List α → List α
  | [] => [x]
  | y :: ys => if key y ≤ key x then x :: y :: ys else y :: insertDescBy key x ys

/-- Stable descending sort by integer key. -/
def sortDescBy (key : α → Int) : List α → List α
  | [] => []
  | x :: xs => insertDescBy key x (sortDescBy key xs)

/-- The value of a non-empty all-digit character list. -/
def digitsVal (l : List Char) : Option Nat :=
  if l.isEmpty then none
  else l.foldl (fun acc c =>
    acc.bind (fun n => if c.isDigit then some (n * 10 + (c.toNat - 48)) else none)) (some 0)

/-- Split a character list on the dash character. -/
def splitDash : List Char → List (List Char)
  | [] => [[]]
  | c :: cs =>
    let rest := splitDash cs
    if c = '-' then [] :: rest
    else
      match rest with
      | [] => [[c]]
      | g :: gs => (c :: g) :: gs

/-- Modelled from the spec: `parseLocalDate` from `src/utils/date.ts` (absent
from the corpus) parses a "YYYY-MM-DD" calendar-date string to the local
midnight of that day without timezone drift. Time is measured in minutes:
a calendar day spans 1440 ticks, the rank below is strictly monotone in
calendar order, and a parsed date always lands on the start (midnight) of its
day, while the current instant `now` may carry an intra-day offset. -/
def parseLocalDate (s : String) : Int :=
  match splitDash s.data with
  | [ys, ms, ds] =>
    match digitsVal ys, digitsVal ms, digitsVal ds with
    | some y, some m, some d => (((y * 12 + m) * 31 + d : Nat) : Int) * 1440
    | _, _, _ => 0
  | _ => 0

/-- Modelled from the spec: the English i18n labels for the interview stage
types used by the Kanban example (the translation resources are absent from
the corpus). -/
def interviewTypeLabelEn (key : String) : String :=
  (([("insights.interviewTypes.first_contact", "First Contact"),
     ("insights.interviewTypes.technical_interview", "Technical Interview"),
     ("insights.interviewTypes.application_submitted", "Application Submitted")]
    : List (String × String)).lookup key).getD key

/-- `getDisplayName` inside `getInterviewingSubStatus`:
the customTypeName for a custom event with a name, else the translated type. -/
def displayName (tr : String → String) (type customName : String) : String :=
  if type = "custom" ∧ customName ≠ "" then customName
  else tr ("insights.interviewTypes." ++ type)

/-- `getInterviewingSubStatus` from `src/components/KanbanView.tsx`.
`parse` stands for `parseLocalDate`, `tr` for the i18n `t`, and `now` for
`new Date()` (the current instant). -/
def getInterviewingSubStatus (parse : String → Int) (tr : String → String) (now : Int)
    (app : JobApplication) : Option String :=
  if app.status ≠ "Interviewing" ∨ app.timeline.isEmpty then none
  else
    let sortedEvents := sortAscBy (fun e => parse e.date) app.timeline
    match sortedEvents.find? (fun e =>
        (e.status == "scheduled" || e.status == "pending") && decide (parse e.date ≥ now)) with
    | some activeEvent => some (displayName tr activeEvent.type activeEvent.customTypeName)
    | none =>
      match sortDescBy (fun e => parse e.date)
          (sortedEvents.filter (fun e => e.status == "completed")) with
      | completedEvent :: _ =>
        some (displayName tr completedEvent.type completedEvent.customTypeName)
      | [] => none

/-- The grouping key computed per record by the `grouped` memo of `KanbanView`:
`app.status || 'Unknown'`, refined to `Interviewing - <sub>` when a (non-empty)
sub-status is derived. -/
def kanbanStatusKey (parse : String → Int) (tr : String → String) (now : Int)
    (app : JobApplication) : String :=
  let base := if app.status ≠ "" then app.status else "Unknown"
  if app.status = "Interviewing" then
    match getInterviewingSubStatus parse tr now app with
    | some sub => if sub ≠ "" then "Interviewing - " ++ sub else base
    | none => base
  else base

/-- The sub-status computation as the claim words it: the active-event cutoff is
"date is today-or-later", i.e. the comparison is against the start of the
current day (`todayStart`) instead of the current instant. -/
def kanbanSubStatusClaim (parse : String → Int) (tr : String → String) (todayStart : Int)
    (app : JobApplication) : Option String :=
  if app.status ≠ "Interviewing" ∨ app.timeline.isEmpty then none
  else
    let sortedEvents := sortAscBy (fun e => parse e.date) app.timeline
    match sortedEvents.find? (fun e =>
        (e.status == "scheduled" || e.status == "pending")
          && decide (parse e.date ≥ todayStart)) with
    | some activeEvent => some (displayName tr activeEvent.type activeEvent.customTypeName)
    | none =>
      match sortDescBy (fun e => parse e.date)
          (sortedEvents.filter (fun e => e.status == "completed")) with
      | completedEvent :: _ =>
        some (displayName tr completedEvent.type completedEvent.customTypeName)
      | [] => none

/-- The amended sub-status description: among the events sorted ascending by
parsed date, the first of those with status scheduled/pending whose parsed date
is at or after the current instant; otherwise the head of the descending sort
of the completed events; otherwise none. -/
def kanbanSubStatusAmended (parse : String → Int) (tr : String → String) (now : Int)
    (app : JobApplication) : Option String :=
  if app.status ≠ "Interviewing" ∨ app.timeline.isEmpty then none
  else
    let sortedEvents := sortAscBy (fun e => parse e.date) app.timeline
    match (sortedEvents.filter (fun e =>
        (e.status == "scheduled" || e.status == "pending")
          && decide (parse e.date ≥ now))).head? with
    | some activeEvent => some (displayName tr activeEvent.type activeEvent.customTypeName)
    | none =>
      match sortDescBy (fun e => parse e.date)
          (sortedEvents.filter (fun e => e.status == "completed")) with
      | completedEvent :: _ =>
        some (displayName tr completedEvent.type completedEvent.customTypeName)
      | [] => none

theorem find?_eq_head?_filter (p : α → Bool) (l : List α) :
    l.find? p = (l.filter p).head? := by
  induction l with
  | nil => rfl
  | cons x xs ih =>
    cases h : p x with
    | true =>
      rw [List.find?_cons_of_pos _ h, List.filter_cons_of_pos h]
      rfl
    | false =>
      rw [List.find?_cons_of_neg _ (by simp [h]), List.filter_cons_of_neg (by simp [h]), ih]

/-- The Interviewing record of the spec's Kanban example: one completed
first_contact event in the past and no future events. -/
def interviewingFirstContactApp : JobApplication :=
  { id := "k1", position := "Dev", company := "Acme", salary := "", status := "Interviewing",
    applicationDate := "", interviewDate := "", followUpDate := "", link := "",
    platform := "", contactName := "", notes := "",
    timeline := [{ id := "e1", type := "first_contact", date := "2024-01-01",
                   status := "completed" }] }

/-- An Interviewing record with a past completed first_contact event and a
technical interview scheduled for the current day. -/
def interviewingTodayApp : JobApplication :=
  { id := "k2", position := "Dev", company := "Acme", salary := "", status := "Interviewing",
    applicationDate := "", interviewDate := "", followUpDate := "", link := "",
    platform := "", contactName := "", notes := "",
    timeline := [{ id := "e1", type := "first_contact", date := "2024-01-01",
                   status := "completed" },
                 { id := "e2", type := "technical_interview", date := "2026-10-11",
                   status := "scheduled" }] }

/-- C8 counterexample: at 10:00 on 2026-10-11 (600 minutes into the day), an
event scheduled for that same day is "today-or-later" — the claim picks the
upcoming technical interview — but the code compares the event's parsed local
midnight against the current instant, rejects it, and falls back to the most
recent completed event. -/
theorem kanban_today_event_skipped_C8_counterexample :
    parseLocalDate ("2026-10-11") ≤ parseLocalDate ("2026-10-11") + 600
    ∧ parseLocalDate ("2026-10-11") + 600 < parseLocalDate ("2026-10-11") + 1440
    ∧ kanbanSubStatusClaim parseLocalDate interviewTypeLabelEn
        (parseLocalDate ("2026-10-11")) interviewingTodayApp
        = some ("Technical Interview")
    ∧ getInterviewingSubStatus parseLocalDate interviewTypeLabelEn
        (parseLocalDate ("2026-10-11") + 600) interviewingTodayApp
        = some ("First Contact")
    ∧ (some ("Technical Interview") : Option String) ≠ some ("First Contact") := by
  refine ⟨by decide, by decide, by decide, by decide, by decide⟩

/-- C8 (amended): the Kanban sub-status of an Interviewing application with a
non-empty timeline is the first event, in ascending parsed-date order, with
status scheduled or pending whose parsed date (local midnight) is at or after
the current instant — so an event dated today is selected only at exactly
midnight — labelled by its type (customTypeName for a named custom event);
failing that, the head of the descending-date sort of the completed events;
failing that, none, and the record groups under plain "Interviewing". In
particular the record with one past completed first_contact event and no
future events groups under "Interviewing - First Contact". -/
theorem kanban_substatus_C8 :
    (∀ (parse : String → Int) (tr : String → String) (now : Int) (app : JobApplication),
      getInterviewingSubStatus parse tr now app = kanbanSubStatusAmended parse tr now app)
    ∧ getInterviewingSubStatus parseLocalDate interviewTypeLabelEn
        (parseLocalDate ("2026-10-11") + 600) interviewingFirstContactApp
        = some ("First Contact")
    ∧ kanbanStatusKey parseLocalDate interviewTypeLabelEn
        (parseLocalDate ("2026-10-11") + 600) interviewingFirstContactApp
        = "Interviewing - First Contact" := by
  refine ⟨?_, by decide, by decide⟩
  intro parse tr now app
  unfold getInterviewingSubStatus kanbanSubStatusAmended
  simp only [find?_eq_head?_filter]

structure Captcha where
  answer : String
  expiresAt : Int
deriving DecidableEq

/-- The outcome of the suggestion POST handler, restricted to the branches that
follow the payload decoding. -/
inductive SuggestResult where
  | badRequest
  | captchaMissing
  | captchaExpired
  | wrongAnswer
  | accepted
deriving DecidableEq

/-- PHP `unset($_SESSION['captchas'][$captchaId])`. -/
def eraseCaptcha (id : String) (s : List (String × Captcha)) : List (String × Captcha) :=
  s.filter (fun p => p.1 != id)

/-- The validation part of the suggestion POST endpoint: explanation bounds,
captcha id/answer presence, session lookup, expiry check (which deletes the
entry), answer comparison (which does NOT delete the entry on mismatch), and
deletion on success. Returns the response class and the new captcha session. -/
def postSuggestion (session : List (String × Captcha)) (now : Int)
    (explanation captchaId captchaAnswer : String) :
    SuggestResult × List (String × Captcha) :=
  if strTrim explanation = "" ∨ (strTrim explanation).length > 5000 then
    (.badRequest, session)
  else if strTrim captchaId = "" ∨ strTrim captchaAnswer = "" then
    (.badRequest, session)
  else
    match session.lookup (strTrim captchaId) with
    | none => (.captchaMissing, session)
    | some captchaData =>
      if captchaData.expiresAt < now then
        (.captchaExpired, eraseCaptcha (strTrim captchaId) session)
      else if strTrim captchaAnswer ≠ captchaData.answer then
        (.wrongAnswer, session)
      else
        (.accepted, eraseCaptcha (strTrim captchaId) session)

/-- The captcha GET endpoint: sweep the expired entries, then store the fresh
challenge under the new id with a five-minute (300 second) expiry. -/
def issueCaptcha (session : List (String × Captcha)) (now : Int)
    (newId answer : String) : List (String × Captcha) :=
  eraseCaptcha newId (session.filter (fun p => !(p.2.expiresAt < now)))
    ++ [(newId, { answer := answer, expiresAt := now + 300 })]

theorem lookup_eraseCaptcha (id : String) (s : List (String × Captcha)) :
    (eraseCaptcha id s).lookup id = none := by
  induction s with
  | nil => rfl
  | cons p rest ih =>
    obtain ⟨k, v⟩ := p
    by_cases h : k = id
    · simpa [eraseCaptcha, List.filter_cons, h] using ih
    · have hb : (k != id) = true := by simp [h]
      have hb2 : (id == k) = false := by simp [Ne.symm h]
      simpa [eraseCaptcha, List.filter_cons, hb, List.lookup, hb2] using ih

/-- C9 counterexample: a wrong answer leaves the captcha entry stored, so the
same captcha id undergoes a second validation check — and is accepted there —
refuting "deleted after the check" / "never involved in more than one
validation check". -/
theorem captcha_rechecked_C9_counterexample :
    let session : List (String × Captcha) := [("c1", { answer := "12345", expiresAt := 1000 })]
    (postSuggestion session 10 ("hello") ("c1") ("11111")).1 = .wrongAnswer
    ∧ (postSuggestion session 10 ("hello") ("c1") ("11111")).2.lookup ("c1")
        = some { answer := "12345", expiresAt := 1000 }
    ∧ (postSuggestion (postSuggestion session 10 ("hello") ("c1") ("11111")).2
        10 ("hello") ("c1") ("12345")).1 = .accepted := by
  refine ⟨by decide, by decide, by decide⟩

/-- C9 (amended): the stored captcha entry is deleted after a successful
validation or when the check finds it expired — a failed answer comparison
leaves it stored, so an id may undergo several checks — but each issued id is
accepted at most once: after an accepted POST the entry is gone, a POST whose
id is not stored is never accepted, and hence a second POST with the same id
after an accepted one is never accepted; issuance only ever stores unexpired
entries. -/
theorem captcha_single_use_C9 :
    (∀ (session : List (String × Captcha)) (now : Int) (e id a : String),
      (postSuggestion session now e id a).1 = .accepted →
      (postSuggestion session now e id a).2.lookup (strTrim id) = none)
    ∧ (∀ (session : List (String × Captcha)) (now : Int) (e id a : String),
      (postSuggestion session now e id a).1 = .captchaExpired →
      (postSuggestion session now e id a).2.lookup (strTrim id) = none)
    ∧ (∀ (session : List (String × Captcha)) (now : Int) (e id a : String),
      session.lookup (strTrim id) = none →
      (postSuggestion session now e id a).1 ≠ .accepted)
    ∧ (∀ (session : List (String × Captcha)) (now now2 : Int) (e e2 id a a2 : String),
      (postSuggestion session now e id a).1 = .accepted →
      (postSuggestion (postSuggestion session now e id a).2 now2 e2 id a2).1 ≠ .accepted)
    ∧ (∀ (session : List (String × Captcha)) (now : Int) (newId ans : String) entry,
      entry ∈ issueCaptcha session now newId ans → ¬ entry.2.expiresAt < now) := by
  have part1 : ∀ (session : List (String × Captcha)) (now : Int) (e id a : String),
      (postSuggestion session now e id a).1 = .accepted →
      (postSuggestion session now e id a).2.lookup (strTrim id) = none := by
    intro s now e id a
    unfold postSuggestion
    split
    · intro h; simp at h
    · split
      · intro h; simp at h
      · split
        · intro h; simp at h
        · split
          · intro h; simp at h
          · split
            · intro h; simp at h
            · intro _
              exact lookup_eraseCaptcha (strTrim id) s
  have part3 : ∀ (session : List (String × Captcha)) (now : Int) (e id a : String),
      session.lookup (strTrim id) = none →
      (postSuggestion session now e id a).1 ≠ .accepted := by
    intro s now e id a h0
    unfold postSuggestion
    split
    · simp
    · split
      · simp
      · split
        · simp
        · rename_i cd heq
          rw [h0] at heq
          cases heq
  refine ⟨part1, ?_, part3, ?_, ?_⟩
  · intro s now e id a
    unfold postSuggestion
    split
    · intro h; simp at h
    · split
      · intro h; simp at h
      · split
        · intro h; simp at h
        · split
          · intro _
            exact lookup_eraseCaptcha (strTrim id) s
          · split
            · intro h; simp at h
            · intro h; simp at h
  · intro s now now2 e e2 id a a2 h1
    exact part3 _ _ _ _ _ (part1 s now e id a h1)
  · intro s now newId ans entry hmem
    unfold issueCaptcha at hmem
    rcases List.mem_append.mp hmem with hmem | hmem
    · have h1 := List.mem_of_mem_filter hmem
      have h2 := (List.mem_filter.mp h1).2
      simpa using h2
    · simp at hmem
      subst hmem
      show ¬ (now + 300 < now)
      omega

/-- Closed instance of C9: a correct first answer deletes the "c1" entry and a
replayed POST with the same id is rejected. -/
theorem captcha_single_use_C9_witness :
    let session : List (String × Captcha) := [("c1", { answer := "54321", expiresAt := 1000 })]
    (postSuggestion session 10 ("hi") ("c1") ("54321")).2.lookup (strTrim ("c1")) = none
    ∧ (postSuggestion (postSuggestion session 10 ("hi") ("c1") ("54321")).2
        20 ("again") ("c1") ("54321")).1 ≠ .accepted := by
  intro session
  refine ⟨?_, ?_⟩
  · exact captcha_single_use_C9.1 session 10 ("hi") ("c1") ("54321") (by decide)
  · exact captcha_single_use_C9.2.2.2.1 session 10 20 ("hi") ("again") ("c1") ("54321")
      ("54321") (by decide)
